import Mathlib

/-!
Verification of the reddis2 in-memory key-value server against its
natural-language specification.  The Rust sources are shallowly embedded:
byte strings become `List Nat`, the `HashMap` keyspace becomes an
association list with replace-on-insert semantics, the `BTreeSet` backing
sorted sets becomes an ordered duplicate-free list, and fallible Rust code
returns `Except`/`Option` (with `Option.none` standing for a Rust panic).
-/

namespace Reddis2

/-- Byte strings (`Bytes`/`&[u8]` in the source) as lists of byte values. -/
abbrev Bytes := List Nat

/-- ASCII encoding of a string literal as a byte list. -/
def bs (s : String) : Bytes := s.data.map Char.toNat

/-- Lossy decoding of bytes back to a string (`String::from_utf8_lossy`,
restricted to the ASCII range actually exercised). -/
def lossy (b : Bytes) : String := String.mk (b.map Char.ofNat)

/-- Rust `StoredValue` from `stored_value.rs`: the tagged value held under a key.
`Instant` deadlines are modelled as absolute milliseconds (`Nat`);
`LinkedList<Bytes>` as `List Bytes`; `HashMap<Bytes, Bytes>` as an
association list; `HashSet<Bytes>` as a duplicate-free list.
The `sortedSet` variant is absent from `stored_value.rs` as given; its shape
(`BTreeSet<(i64, Bytes)>` plus `HashMap<Bytes, i64>`) is reconstructed from
its uses in `sorted_set_ops.rs` and spec par. 3. -/
inductive StoredValue where
  | plain (b : Bytes)
  | ttlPlain (b : Bytes) (deadline : Nat)
  | list (l : List Bytes)
  | dict (d : List (Bytes × Bytes))
  | set (s : List Bytes)
  | sortedSet (tree : List (Int × Bytes)) (scores : List (Bytes × Int))
deriving DecidableEq, Repr

/-- The keyspace `HashMap<Bytes, StoredValue>` as an association list. -/
abbrev Keyspace := List (Bytes × StoredValue)

/-- Rust `HashMap::get`: first binding of the key. -/
def alistGet {β : Type} (l : List (Bytes × β)) (k : Bytes) : Option β :=
  match l with
  | [] => none
  | (k2, v) :: rest => if k2 = k then some v else alistGet rest k

/-- Rust `HashMap::insert` (replace an existing binding, else append). -/
def alistSet {β : Type} (l : List (Bytes × β)) (k : Bytes) (v : β) :
    List (Bytes × β) :=
  match l with
  | [] => [(k, v)]
  | (k2, v2) :: rest =>
      if k2 = k then (k, v) :: rest else (k2, v2) :: alistSet rest k v

/-- Rust `HashMap::remove`. -/
def alistRemove {β : Type} (l : List (Bytes × β)) (k : Bytes) :
    List (Bytes × β) :=
  match l with
  | [] => []
  | (k2, v2) :: rest =>
      if k2 = k then rest else (k2, v2) :: alistRemove rest k

/-- Rust `HashMap::contains_key`. -/
def alistContains {β : Type} (l : List (Bytes × β)) (k : Bytes) : Bool :=
  (alistGet l k).isSome

/-- Rust `HashSet::insert`: returns the new set and whether the member was new. -/
def hsetInsert (s : List Bytes) (m : Bytes) : List Bytes × Bool :=
  if m ∈ s then (s, false) else (s ++ [m], true)

/-- Rust `Ord` on byte strings: lexicographic byte order. -/
def bytesLt : Bytes → Bytes → Bool
  | [], [] => false
  | [], _ :: _ => true
  | _ :: _, [] => false
  | a :: as2, b :: bs2 =>
      if a < b then true else if b < a then false else bytesLt as2 bs2

/-- Rust `Ord` on `(i64, Bytes)` pairs: score first, then member bytes. -/
def pairLt (p q : Int × Bytes) : Bool :=
  if p.1 < q.1 then true
  else if q.1 < p.1 then false
  else bytesLt p.2 q.2

/-- Rust `BTreeSet::insert` on the ordered `(score, member)` index: sorted
insertion, no duplicates. -/
def treeInsert (p : Int × Bytes) : List (Int × Bytes) → List (Int × Bytes)
  | [] => [p]
  | q :: rest =>
      if pairLt p q then p :: q :: rest
      else if p = q then q :: rest
      else q :: treeInsert p rest

/-- Rust `BTreeSet::remove`. -/
def treeRemove (p : Int × Bytes) (t : List (Int × Bytes)) :
    List (Int × Bytes) := t.erase p

/-- Is the byte an ASCII decimal digit? -/
def isDigitByte (b : Nat) : Bool := 48 ≤ b && b ≤ 57

/-- Numeric value of a digit string. -/
def digitsVal (ds : Bytes) : Nat := ds.foldl (fun acc d => acc * 10 + (d - 48)) 0

/-- Rust `str::parse::<i64>` applied to `String::from_utf8_lossy(bytes)`:
optional sign, one or more decimal digits, within the i64 range. -/
def bytesToInt? (b : Bytes) : Option Int :=
  let signRest : Int × Bytes :=
    match b with
    | 43 :: r => (1, r)
    | 45 :: r => (-1, r)
    | r => (1, r)
  let sign := signRest.1
  let rest := signRest.2
  if rest = [] then none
  else if rest.all isDigitByte then
    let n : Int := sign * digitsVal rest
    if -(2 ^ 63) ≤ n ∧ n < 2 ^ 63 then some n else none
  else none

/-- Rust `i64::to_string` as bytes. -/
def intToBytes (n : Int) : Bytes := bs (toString n)

/-! ## hmap_ops.rs -/

/-- Rust `insert_alloc`: store the value (plain, or with a deadline), returning
the keyspace and the previous stored value (`HashMap::insert`). -/
def insertAlloc (ks : Keyspace) (key value : Bytes) (maybeEndOfLife : Option Nat) :
    Keyspace × Option StoredValue :=
  (alistSet ks key
      (match maybeEndOfLife with
        | none => .plain value
        | some i => .ttlPlain value i),
    alistGet ks key)

/-- Rust `set_if_not_exist`: write only if the key is absent. -/
def setIfNotExist (ks : Keyspace) (key value : Bytes) : Keyspace :=
  if alistContains ks key then ks else (insertAlloc ks key value none).1

/-- Rust `update_if_exist`: write only if the key is present. -/
def updateIfExist (ks : Keyspace) (key value : Bytes) : Keyspace :=
  if alistContains ks key then (insertAlloc ks key value none).1 else ks

/-- Rust `delete_all`: remove each listed key (returns unit in the source). -/
def deleteAll (ks : Keyspace) (keys : List Bytes) : Keyspace :=
  keys.foldl alistRemove ks

/-- Rust `get_ttl` at time `now` (milliseconds): remaining duration of a
`TtlPlain`, `none` for missing keys and plain strings, error otherwise.
`Instant::duration_since` saturates at zero, as does `Nat` subtraction. -/
def getTtl (now : Nat) (ks : Keyspace) (key : Bytes) : Except String (Option Nat) :=
  match alistGet ks key with
  | none => .ok none
  | some (.ttlPlain _ i) => .ok (some (i - now))
  | some (.plain _) => .ok none
  | some _ => .error "cannot get the TTL for the stored value"

/-! ## numerical_ops.rs -/

/-- Rust `incr_by`: parse the stored string as i64, add the delta, store the
decimal result back. Missing key gives `none` (no write). The source
returns the new value as bytes; the value itself is returned here (the
bytes are `intToBytes` of it). -/
def incrBy (ks : Keyspace) (key : Bytes) (d : Int) :
    Except String (Keyspace × Option Int) :=
  match alistGet ks key with
  | none => .ok (ks, none)
  | some (.plain b) =>
      match bytesToInt? b with
      | some num =>
          let newValue := num + d
          .ok (alistSet ks key (.plain (intToBytes newValue)), some newValue)
      | none => .error "stored value isn't a 64 bit integer"
  | some _ => .error "stored value isn't a 64 bit integer"

/-! ## list_ops.rs -/

/-- The `push_front` loop of `prepend`: each value in turn to the front. -/
def listPushFront : List Bytes → List Bytes → List Bytes
  | [], l => l
  | v :: vs2, l => listPushFront vs2 (v :: l)

/-- The `push_back` loop of `append`: each value in turn to the back. -/
def listPushBack (vs l : List Bytes) : List Bytes :=
  vs.foldl (fun acc v => acc ++ [v]) l

/-- Rust `Popped` from list_ops.rs. -/
inductive Popped where
  | none
  | multiple (vs : List Bytes)
  | single (b : Bytes)
deriving DecidableEq, Repr

/-- Rust `append` (RPUSH): `entry(..).or_insert(empty list)` then push each value
to the back; returns the number of values pushed. The error message reads
LPUSH in the source (the two messages are swapped there). -/
def listAppend (ks : Keyspace) (key : Bytes) (values : List Bytes) :
    Except String (Keyspace × Nat) :=
  match alistGet ks key with
  | none => .ok (alistSet ks key (.list (listPushBack values [])), values.length)
  | some (.list l) =>
      .ok (alistSet ks key (.list (listPushBack values l)), values.length)
  | some _ => .error "cannot LPUSH to a value that is not a LIST"

/-- Rust `prepend` (LPUSH): push each value in the order given to the front;
returns the number of values pushed. -/
def listPrepend (ks : Keyspace) (key : Bytes) (values : List Bytes) :
    Except String (Keyspace × Nat) :=
  match alistGet ks key with
  | none => .ok (alistSet ks key (.list (listPushFront values [])), values.length)
  | some (.list l) =>
      .ok (alistSet ks key (.list (listPushFront values l)), values.length)
  | some _ => .error "cannot RPUSH to a value that is not a LIST"

/-- The pop loop: take up to `n` elements off the front. -/
def popN : Nat → List Bytes → List Bytes × List Bytes
  | 0, l => ([], l)
  | _ + 1, [] => ([], [])
  | n + 1, x :: rest =>
      let (ps, rem) := popN n rest
      (x :: ps, rem)

/-- Shape the popped elements as the source does: an array when a count was
given, else the single first element or nothing. -/
def poppedOf (isMultiCount : Bool) (toRet : List Bytes) : Popped :=
  if isMultiCount then .multiple toRet
  else
    match toRet with
    | x :: _ => .single x
    | [] => .none

/-- Rust `pop_front` (LPOP). -/
def popFront (ks : Keyspace) (key : Bytes) (n : Option Nat) :
    Except String (Keyspace × Popped) :=
  match alistGet ks key with
  | none => .ok (ks, .none)
  | some (.list ll) =>
      let (toRet, rem) := popN (n.getD 1) ll
      .ok (alistSet ks key (.list rem), poppedOf n.isSome toRet)
  | some _ => .error "cannot LPOP from a value that is not a LIST"

/-- Rust `pop_back` (RPOP): pops off the back, most recently popped first. -/
def popBack (ks : Keyspace) (key : Bytes) (n : Option Nat) :
    Except String (Keyspace × Popped) :=
  match alistGet ks key with
  | none => .ok (ks, .none)
  | some (.list ll) =>
      let (toRet, remRev) := popN (n.getD 1) ll.reverse
      .ok (alistSet ks key (.list remRev.reverse), poppedOf n.isSome toRet)
  | some _ => .error "cannot LPOP from a value that is not a LIST"

/-! ## dict_ops.rs -/

/-- Rust `dict_get`. -/
def dictGet (ks : Keyspace) (key field : Bytes) : Except String (Option Bytes) :=
  match alistGet ks key with
  | none => .ok none
  | some (.dict d) => .ok (alistGet d field)
  | some _ => .error "stored value isn't a dict"

/-- Rust `dict_mget`: present fields in order, paired with the dict size the
source reports as the array length. -/
def dictMget (ks : Keyspace) (key : Bytes) (fields : List Bytes) :
    Except String (Option (List Bytes × Nat)) :=
  match alistGet ks key with
  | none => .ok none
  | some (.dict d) =>
      .ok (some (fields.filterMap (alistGet d), d.length))
  | some _ => .error "stored value isn't a dict"

/-- The `chunks(2)` traversal of `dict_mset`: `chunk[1]` panics (`none`)
when the list has odd length. -/
def chunkPairs : List Bytes → Option (List (Bytes × Bytes))
  | [] => some []
  | [_] => none
  | a :: b :: rest => (chunkPairs rest).map (fun l => (a, b) :: l)

/-- Rust `dict_mset`: create-or-open the dict, insert each field/value pair.
`none` is the chunk-indexing panic on an odd token list. -/
def dictMset (ks : Keyspace) (key : Bytes) (fieldsAndValues : List Bytes) :
    Option (Except String Keyspace) :=
  match alistGet ks key with
  | none =>
      match chunkPairs fieldsAndValues with
      | none => none
      | some prs =>
          some (.ok (alistSet ks key
            (.dict (prs.foldl (fun dd p => alistSet dd p.1 p.2) []))))
  | some (.dict d) =>
      match chunkPairs fieldsAndValues with
      | none => none
      | some prs =>
          some (.ok (alistSet ks key
            (.dict (prs.foldl (fun dd p => alistSet dd p.1 p.2) d))))
  | some _ => some (.error "stored value isn't a dict")

/-- Rust `dict_get_all`: field,value pairs flattened, with the dict size the
source reports as the array length. -/
def dictGetAll (ks : Keyspace) (key : Bytes) :
    Except String (Option (List Bytes × Nat)) :=
  match alistGet ks key with
  | none => .ok none
  | some (.dict d) =>
      .ok (some ((d.map (fun p => [p.1, p.2])).flatten, d.length))
  | some _ => .error "stored value isn't a dict"

/-- Rust `dict_incr_by`: counter semantics per field, missing field counts as 0;
creates the dict on a missing key. -/
def dictIncrBy (ks : Keyspace) (key field : Bytes) (d : Int) :
    Except String (Keyspace × Int) :=
  match alistGet ks key with
  | none =>
      let newValue := (0 : Int) + d
      .ok (alistSet ks key (.dict (alistSet [] field (intToBytes newValue))),
        newValue)
  | some (.dict dd) =>
      match alistGet dd field with
      | none =>
          let newValue := (0 : Int) + d
          .ok (alistSet ks key (.dict (alistSet dd field (intToBytes newValue))),
            newValue)
      | some b =>
          match bytesToInt? b with
          | none => .error "hash value is not an integer"
          | some current =>
              let newValue := current + d
              .ok (alistSet ks key
                  (.dict (alistSet dd field (intToBytes newValue))), newValue)
  | some _ => .error "stored value isn't a dict"

/-- Rust `dict_exists`. -/
def dictExists (ks : Keyspace) (key field : Bytes) : Except String Bool :=
  match alistGet ks key with
  | none => .ok false
  | some (.dict d) => .ok (alistContains d field)
  | some _ => .error "stored value isn't a dict"

/-- Rust `dict_keys`. -/
def dictKeys (ks : Keyspace) (key : Bytes) :
    Except String (Option (List Bytes × Nat)) :=
  match alistGet ks key with
  | none => .ok none
  | some (.dict d) => .ok (some (d.map Prod.fst, d.length))
  | some _ => .error "stored value isn't a dict"

/-! ## set_ops.rs -/

/-- Rust `set_add`: create-or-open the set, insert each member, count the newly
added ones. -/
def setAdd (ks : Keyspace) (key : Bytes) (members : List Bytes) :
    Except String (Keyspace × Nat) :=
  match alistGet ks key with
  | none =>
      let r := members.foldl
        (fun acc m =>
          let (s2, isNew) := hsetInsert acc.1 m
          (s2, acc.2 + if isNew then 1 else 0)) (([] : List Bytes), (0 : Nat))
      .ok (alistSet ks key (.set r.1), r.2)
  | some (.set s) =>
      let r := members.foldl
        (fun acc m =>
          let (s2, isNew) := hsetInsert acc.1 m
          (s2, acc.2 + if isNew then 1 else 0)) (s, (0 : Nat))
      .ok (alistSet ks key (.set r.1), r.2)
  | some _ => .error "stored value isn't a set"

/-- Rust `set_is_member`. -/
def setIsMember (ks : Keyspace) (key member : Bytes) : Except String Bool :=
  match alistGet ks key with
  | none => .ok false
  | some (.set s) => .ok (member ∈ s)
  | some _ => .error "stored value isn't a set"

/-- The `retain` loop of `set_inter` over the remaining keys: a missing key
empties the result immediately. -/
def setInterGo (ks : Keyspace) (result : List Bytes) :
    List Bytes → Except String (List Bytes × Nat)
  | [] => .ok (result, result.length)
  | k :: rest =>
      match alistGet ks k with
      | none => .ok ([], 0)
      | some (.set s) => setInterGo ks (result.filter (· ∈ s)) rest
      | some _ => .error "stored value isn't a set"

/-- Rust `set_inter`. -/
def setInter (ks : Keyspace) : List Bytes → Except String (List Bytes × Nat)
  | [] => .ok ([], 0)
  | k :: rest =>
      match alistGet ks k with
      | none => .ok ([], 0)
      | some (.set s) => setInterGo ks s rest
      | some _ => .error "stored value isn't a set"

/-- The `extend` loop of `set_union`: a missing key is skipped. -/
def setUnionGo (ks : Keyspace) (result : List Bytes) :
    List Bytes → Except String (List Bytes × Nat)
  | [] => .ok (result, result.length)
  | k :: rest =>
      match alistGet ks k with
      | none => setUnionGo ks result rest
      | some (.set s) =>
          setUnionGo ks (s.foldl (fun acc m => (hsetInsert acc m).1) result) rest
      | some _ => .error "stored value isn't a set"

/-- Rust `set_union`. -/
def setUnion (ks : Keyspace) (keys : List Bytes) :
    Except String (List Bytes × Nat) :=
  setUnionGo ks [] keys

/-- The `retain` loop of `set_diff` over the remaining keys: a missing key
is skipped. -/
def setDiffGo (ks : Keyspace) (result : List Bytes) :
    List Bytes → Except String (List Bytes × Nat)
  | [] => .ok (result, result.length)
  | k :: rest =>
      match alistGet ks k with
      | none => setDiffGo ks result rest
      | some (.set s) => setDiffGo ks (result.filter (fun m => m ∉ s)) rest
      | some _ => .error "stored value isn't a set"

/-- Rust `set_diff`: left to right, starting from the first key's members. -/
def setDiff (ks : Keyspace) : List Bytes → Except String (List Bytes × Nat)
  | [] => .ok ([], 0)
  | k :: rest =>
      match alistGet ks k with
      | none => .ok ([], 0)
      | some (.set s) => setDiffGo ks s rest
      | some _ => .error "stored value isn't a set"

/-- Rust `set_card`. -/
def setCard (ks : Keyspace) (key : Bytes) : Except String (Option Nat) :=
  match alistGet ks key with
  | none => .ok none
  | some (.set s) => .ok (some s.length)
  | some _ => .error "stored value isn't a set"

/-- Rust `set_members`. -/
def setMembers (ks : Keyspace) (key : Bytes) :
    Except String (Option (List Bytes × Nat)) :=
  match alistGet ks key with
  | none => .ok none
  | some (.set s) => .ok (some (s, s.length))
  | some _ => .error "stored value isn't a set"

/-! ## sorted_set_ops.rs -/

/-- One iteration of the `zset_add` member loop: drop the stale index pair
when the member already has a score, then insert into both structures.
Returns the two structures and 1 when the member was newly added. -/
def zaddOne (t : List (Int × Bytes)) (sc : List (Bytes × Int))
    (score : Int) (member : Bytes) :
    List (Int × Bytes) × List (Bytes × Int) × Nat :=
  match alistGet sc member with
  | some oldScore =>
      (treeInsert (score, member) (treeRemove (oldScore, member) t),
        alistSet sc member score, 0)
  | none =>
      (treeInsert (score, member) t, alistSet sc member score, 1)

/-- The whole `zset_add` member loop, accumulating the added count. -/
def zaddMany (t : List (Int × Bytes)) (sc : List (Bytes × Int)) :
    List (Int × Bytes) → List (Int × Bytes) × List (Bytes × Int) × Nat
  | [] => (t, sc, 0)
  | (score, member) :: rest =>
      let (t2, sc2, a) := zaddOne t sc score member
      let (t3, sc3, b) := zaddMany t2 sc2 rest
      (t3, sc3, a + b)

/-- Rust `zset_add`: create-or-open the sorted set, run the member loop. -/
def zsetAdd (ks : Keyspace) (key : Bytes) (members : List (Int × Bytes)) :
    Except String (Keyspace × Nat) :=
  match alistGet ks key with
  | none =>
      let (t2, sc2, n) := zaddMany [] [] members
      .ok (alistSet ks key (.sortedSet t2 sc2), n)
  | some (.sortedSet t sc) =>
      let (t2, sc2, n) := zaddMany t sc members
      .ok (alistSet ks key (.sortedSet t2 sc2), n)
  | some _ => .error "stored value isn't a sorted set"

/-- Rust `normalize_range`: Redis index clamping, `none` when the set is empty
or the normalized start exceeds the normalized stop. -/
def normalizeRange (len : Nat) (start stop : Int) : Option (Nat × Nat) :=
  if len = 0 then none
  else
    let realStart : Nat :=
      if start < 0 then (max ((len : Int) + start) 0).toNat
      else start.toNat.min (len - 1)
    let realStop : Nat :=
      if stop < 0 then (max ((len : Int) + stop) 0).toNat
      else stop.toNat.min (len - 1)
    if realStart > realStop then none else some (realStart, realStop)

/-- Rust `collect_with_scores`: members in iteration order, each followed by its
decimal score when `withscores`. -/
def collectWithScores (l : List (Int × Bytes)) (withscores : Bool) :
    List Bytes × Nat :=
  let r := (l.map (fun p =>
      if withscores then [p.2, intToBytes p.1] else [p.2])).flatten
  (r, r.length)

/-- Rust `zset_range`. -/
def zsetRange (ks : Keyspace) (key : Bytes) (start stop : Int)
    (withscores : Bool) : Except String (Option (List Bytes × Nat)) :=
  match alistGet ks key with
  | none => .ok none
  | some (.sortedSet t _) =>
      match normalizeRange t.length start stop with
      | none => .ok (some ([], 0))
      | some (realStart, realStop) =>
          .ok (some (collectWithScores
            ((t.drop realStart).take (realStop - realStart + 1)) withscores))
  | some _ => .error "stored value isn't a sorted set"

/-- Rust `zset_revrange`: the same slice over the reversed index. -/
def zsetRevrange (ks : Keyspace) (key : Bytes) (start stop : Int)
    (withscores : Bool) : Except String (Option (List Bytes × Nat)) :=
  match alistGet ks key with
  | none => .ok none
  | some (.sortedSet t _) =>
      match normalizeRange t.length start stop with
      | none => .ok (some ([], 0))
      | some (realStart, realStop) =>
          .ok (some (collectWithScores
            ((t.reverse.drop realStart).take (realStop - realStart + 1))
            withscores))
  | some _ => .error "stored value isn't a sorted set"

/-- Rust `zset_rank`: `tree.range(..target).count()` — the number of index pairs
strictly below `(score, member)`. -/
def zsetRank (ks : Keyspace) (key member : Bytes) :
    Except String (Option Nat) :=
  match alistGet ks key with
  | none => .ok none
  | some (.sortedSet t sc) =>
      match alistGet sc member with
      | none => .ok none
      | some score => .ok (some (t.countP (fun q => pairLt q (score, member))))
  | some _ => .error "stored value isn't a sorted set"

/-- Rust `zset_revrank`: `len - 1 - rank` (usize arithmetic; `Nat` subtraction
saturates where Rust would panic on underflow, unreachable here). -/
def zsetRevrank (ks : Keyspace) (key member : Bytes) :
    Except String (Option Nat) :=
  match alistGet ks key with
  | none => .ok none
  | some (.sortedSet t sc) =>
      match alistGet sc member with
      | none => .ok none
      | some score =>
          .ok (some (t.length - 1 - t.countP (fun q => pairLt q (score, member))))
  | some _ => .error "stored value isn't a sorted set"

/-- Rust `zset_score`. -/
def zsetScore (ks : Keyspace) (key member : Bytes) :
    Except String (Option Int) :=
  match alistGet ks key with
  | none => .ok none
  | some (.sortedSet _ sc) => .ok (alistGet sc member)
  | some _ => .error "stored value isn't a sorted set"

/-- Rust `zset_range_by_score`: `skip_while(score < min)` then
`take_while(score <= max)` over the ordered index. -/
def zsetRangeByScore (ks : Keyspace) (key : Bytes) (min max : Int)
    (withscores : Bool) : Except String (Option (List Bytes × Nat)) :=
  match alistGet ks key with
  | none => .ok none
  | some (.sortedSet t _) =>
      .ok (some (collectWithScores
        ((t.dropWhile (fun p => p.1 < min)).takeWhile (fun p => p.1 ≤ max))
        withscores))
  | some _ => .error "stored value isn't a sorted set"

/-- Rust `zset_incr_by`: create-or-open the sorted set, treat a missing member as
score 0, move the index pair to the new score. -/
def zsetIncrBy (ks : Keyspace) (key : Bytes) (incr : Int) (member : Bytes) :
    Except String (Keyspace × Int) :=
  match alistGet ks key with
  | none =>
      let newScore := (0 : Int) + incr
      .ok (alistSet ks key
          (.sortedSet (treeInsert (newScore, member) [])
            (alistSet [] member newScore)), newScore)
  | some (.sortedSet t sc) =>
      let oldScore := (alistGet sc member).getD 0
      let newScore := oldScore + incr
      let t2 := if (alistGet sc member).isSome
        then treeRemove (oldScore, member) t else t
      .ok (alistSet ks key
          (.sortedSet (treeInsert (newScore, member) t2)
            (alistSet sc member newScore)), newScore)
  | some _ => .error "stored value isn't a sorted set"

/-- Modelled from the spec: `zcard` is called from main.rs but has no
definition under src/. Spec: "ZCARD key → integer or null"; following the
sibling sorted-set reads, a missing key yields `none` (null bulk), another
variant WRONGTYPE, and otherwise the member count. -/
def zcard (ks : Keyspace) (key : Bytes) : Except String (Option Nat) :=
  match alistGet ks key with
  | none => .ok none
  | some (.sortedSet _ sc) => .ok (some sc.length)
  | some _ => .error "stored value isn't a sorted set"

/-! ## cmd/mod.rs — the command grammar -/

/-- Rust `Info` from cmd/mod.rs (CLIENT SETINFO parameter). -/
inductive InfoParam where
  | libName (b : Bytes)
  | libVersion (b : Bytes)
deriving DecidableEq, Repr


/-- Rust `Command` from cmd/mod.rs. Durations are milliseconds. -/
inductive Command where
  | ping
  | docs
  | dbSize
  | config
  | get (key : Bytes)
  | set (key value : Bytes) (ttlMs : Option Nat)
  | setNx (key value : Bytes)
  | setXx (key value : Bytes)
  | setAndGet (key value : Bytes)
  | setKeepTtl (key value : Bytes)
  | lpush (key : Bytes) (values : List Bytes)
  | rpush (key : Bytes) (values : List Bytes)
  | lpushX (key : Bytes) (values : List Bytes)
  | rpushX (key : Bytes) (values : List Bytes)
  | lpop (key : Bytes) (count : Option Nat)
  | rpop (key : Bytes) (count : Option Nat)
  | lrange (key : Bytes) (start stop : Int)
  | del (keys : List Bytes)
  | incr (key : Bytes)
  | incrBy (key : Bytes) (d : Int)
  | flushDb
  | clientSetInfo (p : InfoParam)
  | clientSetName
  | ttl (key : Bytes)
  | llen (key : Bytes)
  | hget (key field : Bytes)
  | hmget (key : Bytes) (fields : List Bytes)
  | hmset (key : Bytes) (fieldsAndValues : List Bytes)
  | hgetAll (key : Bytes)
  | hincrBy (key field : Bytes) (d : Int)
  | existsKey (key : Bytes)
  | hexists (key field : Bytes)
  | hkeys (key : Bytes)
  | sadd (key : Bytes) (members : List Bytes)
  | sismember (key member : Bytes)
  | sinter (keys : List Bytes)
  | sunion (keys : List Bytes)
  | sdiff (keys : List Bytes)
  | scard (key : Bytes)
  | smembers (key : Bytes)
  | zadd (key : Bytes) (members : List (Int × Bytes))
  | zrange (key : Bytes) (start stop : Int) (withscores : Bool)
  | zrevrange (key : Bytes) (start stop : Int) (withscores : Bool)
  | zrank (key member : Bytes)
  | zrevrank (key member : Bytes)
  | zscore (key member : Bytes)
  | zrangebyscore (key : Bytes) (min max : Int) (withscores : Bool)
  | zincrby (key : Bytes) (incr : Int) (member : Bytes)
  | zcard (key : Bytes)
  | infoCmd
  | latencyHistogram (commands : List Bytes)
deriving Repr

/-! ## ops.rs — response shapes

Each constructor records one of the write paths of ops.rs:
`simple s` is `+s\r\n` (`ok`, `pong`), `wrongType m` is `-WRONGTYPE m\r\n`,
`err m` is `-ERR m\r\n`, `int n` is `:n\r\n`, `bulk b` is the
length-prefixed bulk string, `nullBulk` is `$-1\r\n` (`key_not_found`),
`array elems declaredLen` is `*declaredLen\r\n` followed by the bulk
elements (the source sometimes passes a length that differs from the
element count, so both are recorded), `info`/`latency` stand for the
out-of-scope INFO / LATENCY HISTOGRAM blocks. -/
inductive Resp where
  | simple (s : String)
  | err (msg : String)
  | wrongType (msg : String)
  | int (n : Int)
  | bulk (b : Bytes)
  | nullBulk
  | array (elems : List Bytes) (declaredLen : Nat)
  | info (dbKeys : Nat)
  | latency
deriving DecidableEq, Repr

/-- Modelled from the spec: `delete_all` returns unit in hmap_ops.rs while
main.rs writes its result with `write_integer`, which does not typecheck;
spec par. 9 fixes DEL to reply the integer count of keys removed. This loop
removes the keys in order and counts the ones that were present. -/
def delLoop : Keyspace → Nat → List Bytes → Keyspace × Nat
  | ks, n, [] => (ks, n)
  | ks, n, k :: rest =>
      delLoop (alistRemove ks k) (n + if alistContains ks k then 1 else 0) rest

/-! ## main.rs — command dispatch

`execute now c ks` is the body of the big `match cmd` in main.rs: the
keyspace after the command and the response written to the client.
`none` is a panic (the `todo!()` arms and panicking helper calls).
`now` is the current `Instant` in milliseconds. -/
def execute (now : Nat) (c : Command) (ks : Keyspace) :
    Option (Keyspace × Resp) :=
  match c with
  | .get key =>
      match alistGet ks key with
      | none => some (ks, .nullBulk)
      | some (.plain b) => some (ks, .bulk b)
      | some _ => some (ks, .wrongType "expected STRING")
  | .set key value ttlMs =>
      some ((insertAlloc ks key value (ttlMs.map (fun d => now + d))).1,
        .simple "OK")
  | .setNx key value => some (setIfNotExist ks key value, .simple "OK")
  | .setXx key value => some (updateIfExist ks key value, .simple "OK")
  | .setAndGet key value =>
      let r := insertAlloc ks key value none
      some (r.1,
        match r.2 with
        | none => .nullBulk
        | some (.plain b) => .bulk b
        | some (.ttlPlain b _) => .bulk b
        | some _ => .wrongType "expected STRING")
  | .setKeepTtl key value =>
      match alistGet ks key with
      | none => some ((insertAlloc ks key value none).1, .simple "OK")
      | some (.plain b) => some (ks, .bulk b)
      | some (.ttlPlain b _) => some (ks, .bulk b)
      | some _ => some (ks, .wrongType "expected STRING")
  | .ping => some (ks, .simple "PONG")
  | .flushDb => some (ks, .simple "OK")
  | .docs => some (ks, .array [] 0)
  | .dbSize => some (ks, .int ks.length)
  | .config => some (ks, .array [] 0)
  | .lpush key values =>
      match listPrepend ks key values with
      | .error e => some (ks, .wrongType e)
      | .ok (ks2, n) => some (ks2, .int n)
  | .rpush key values =>
      match listAppend ks key values with
      | .error e => some (ks, .wrongType e)
      | .ok (ks2, n) => some (ks2, .int n)
  | .lpushX _ _ => none
  | .rpushX _ _ => none
  | .lpop key count =>
      match popFront ks key count with
      | .error e => some (ks, .wrongType e)
      | .ok (ks2, .none) => some (ks2, .nullBulk)
      | .ok (ks2, .single b) => some (ks2, .bulk b)
      | .ok (ks2, .multiple vs) => some (ks2, .array vs vs.length)
  | .rpop key count =>
      match popBack ks key count with
      | .error e => some (ks, .wrongType e)
      | .ok (ks2, .none) => some (ks2, .nullBulk)
      | .ok (ks2, .single b) => some (ks2, .bulk b)
      | .ok (ks2, .multiple vs) => some (ks2, .array vs vs.length)
  | .del keys =>
      let r := delLoop ks 0 keys
      some (r.1, .int r.2)
  | .incr key =>
      match incrBy ks key 1 with
      | .error e => some (ks, .wrongType e)
      | .ok (ks2, none) => some (ks2, .nullBulk)
      | .ok (ks2, some v) => some (ks2, .int v)
  | .incrBy key d =>
      match incrBy ks key d with
      | .error e => some (ks, .wrongType e)
      | .ok (ks2, none) => some (ks2, .nullBulk)
      | .ok (ks2, some v) => some (ks2, .int v)
  | .clientSetInfo _ => some (ks, .simple "OK")
  | .clientSetName => some (ks, .simple "OK")
  | .ttl key =>
      match getTtl now ks key with
      | .error e => some (ks, .wrongType e)
      | .ok none => some (ks, .nullBulk)
      | .ok (some durMs) => some (ks, .int (durMs / 1000))
  | .lrange key start stop =>
      match alistGet ks key with
      | none => some (ks, .nullBulk)
      | some (.list ll) =>
          let len : Int := ll.length
          let start2 := if start < 0 then len - start else start
          let stop2 := if stop < 0 then len - stop else stop
          let vec :=
            if start2 ≤ stop2 then (ll.drop start2.toNat).take (stop2.toNat + 1)
            else ((ll.drop stop2.toNat).take (start2.toNat + 1)).reverse
          some (ks, .array vec vec.length)
      | some _ => some (ks, .wrongType "stored value isn't a list")
  | .llen key =>
      match alistGet ks key with
      | none => some (ks, .nullBulk)
      | some (.list ll) => some (ks, .int ll.length)
      | some _ => some (ks, .wrongType "stored value isn't a list")
  | .hget key field =>
      match dictGet ks key field with
      | .error e => some (ks, .wrongType e)
      | .ok none => some (ks, .nullBulk)
      | .ok (some v) => some (ks, .bulk v)
  | .hmget key fields =>
      match dictMget ks key fields with
      | .error e => some (ks, .wrongType e)
      | .ok none => some (ks, .nullBulk)
      | .ok (some (vals, len)) => some (ks, .array vals len)
  | .hmset key fieldsAndValues =>
      match dictMset ks key fieldsAndValues with
      | none => none
      | some (.error e) => some (ks, .wrongType e)
      | some (.ok ks2) => some (ks2, .simple "OK")
  | .hgetAll key =>
      match dictGetAll ks key with
      | .error e => some (ks, .wrongType e)
      | .ok none => some (ks, .nullBulk)
      | .ok (some (vals, len)) => some (ks, .array vals len)
  | .hincrBy key field d =>
      match dictIncrBy ks key field d with
      | .error e => some (ks, .wrongType e)
      | .ok (ks2, v) => some (ks2, .int v)
  | .existsKey key =>
      some (ks, .int (if alistContains ks key then 1 else 0))
  | .hexists key field =>
      match dictExists ks key field with
      | .error e => some (ks, .wrongType e)
      | .ok b => some (ks, .int (if b then 1 else 0))
  | .hkeys key =>
      match dictKeys ks key with
      | .error e => some (ks, .wrongType e)
      | .ok none => some (ks, .nullBulk)
      | .ok (some (keys, len)) => some (ks, .array keys len)
  | .sadd key members =>
      match setAdd ks key members with
      | .error e => some (ks, .wrongType e)
      | .ok (ks2, added) => some (ks2, .int added)
  | .sismember key member =>
      match setIsMember ks key member with
      | .error e => some (ks, .wrongType e)
      | .ok b => some (ks, .int (if b then 1 else 0))
  | .sinter keys =>
      match setInter ks keys with
      | .error e => some (ks, .wrongType e)
      | .ok (vals, len) => some (ks, .array vals len)
  | .sunion keys =>
      match setUnion ks keys with
      | .error e => some (ks, .wrongType e)
      | .ok (vals, len) => some (ks, .array vals len)
  | .sdiff keys =>
      match setDiff ks keys with
      | .error e => some (ks, .wrongType e)
      | .ok (vals, len) => some (ks, .array vals len)
  | .scard key =>
      match setCard ks key with
      | .error e => some (ks, .wrongType e)
      | .ok none => some (ks, .nullBulk)
      | .ok (some len) => some (ks, .int len)
  | .smembers key =>
      match setMembers ks key with
      | .error e => some (ks, .wrongType e)
      | .ok none => some (ks, .nullBulk)
      | .ok (some (vals, len)) => some (ks, .array vals len)
  | .zadd key members =>
      match zsetAdd ks key members with
      | .error e => some (ks, .wrongType e)
      | .ok (ks2, added) => some (ks2, .int added)
  | .zrange key start stop withscores =>
      match zsetRange ks key start stop withscores with
      | .error e => some (ks, .wrongType e)
      | .ok none => some (ks, .nullBulk)
      | .ok (some (vals, len)) => some (ks, .array vals len)
  | .zrevrange key start stop withscores =>
      match zsetRevrange ks key start stop withscores with
      | .error e => some (ks, .wrongType e)
      | .ok none => some (ks, .nullBulk)
      | .ok (some (vals, len)) => some (ks, .array vals len)
  | .zrank key member =>
      match zsetRank ks key member with
      | .error e => some (ks, .wrongType e)
      | .ok none => some (ks, .nullBulk)
      | .ok (some rank) => some (ks, .int rank)
  | .zrevrank key member =>
      match zsetRevrank ks key member with
      | .error e => some (ks, .wrongType e)
      | .ok none => some (ks, .nullBulk)
      | .ok (some rank) => some (ks, .int rank)
  | .zscore key member =>
      match zsetScore ks key member with
      | .error e => some (ks, .wrongType e)
      | .ok none => some (ks, .nullBulk)
      | .ok (some score) => some (ks, .bulk (intToBytes score))
  | .zrangebyscore key min max withscores =>
      match zsetRangeByScore ks key min max withscores with
      | .error e => some (ks, .wrongType e)
      | .ok none => some (ks, .nullBulk)
      | .ok (some (vals, len)) => some (ks, .array vals len)
  | .zincrby key incr member =>
      match zsetIncrBy ks key incr member with
      | .error e => some (ks, .wrongType e)
      | .ok (ks2, score) => some (ks2, .bulk (intToBytes score))
  | .zcard key =>
      match zcard ks key with
      | .error e => some (ks, .wrongType e)
      | .ok none => some (ks, .nullBulk)
      | .ok (some v) => some (ks, .int v)
  | .infoCmd => some (ks, .info ks.length)
  | .latencyHistogram _ => some (ks, .latency)

/-! ## cmd/parser.rs

The parser is written with nom combinators from `nom::bytes::complete` and
`nom::character::complete`.  Complete-mode combinators return
`Err::Error` at end of input and never `Err::Incomplete`, so the result
type below has no incomplete constructor.  `panic` models a Rust panic:
the `.expect(..)` calls on number parsing and the unchecked slice
`&i[0..str_size]` in `value`. -/
inductive NomResult (α : Type) where
  | ok (rest : Bytes) (val : α)
  | err (msg : String)
  | panic
deriving Repr, DecidableEq

/-- Rust `nom::bytes::complete::tag`. -/
def tagP (t i : Bytes) : NomResult Bytes :=
  if t.isPrefixOf i then .ok (i.drop t.length) t else .err "tag"

/-- Rust `value`: `$`, a digit run, `\r\n`, then `str_size` raw bytes.
The empty digit run panics (`usize::from_str(..).expect`), a buffer shorter
than `str_size` panics (`&i[0..str_size]`). -/
def valueP (i : Bytes) : NomResult Bytes :=
  match tagP (bs "$") i with
  | .err e => .err e
  | .panic => .panic
  | .ok i1 _ =>
      let ds := i1.takeWhile isDigitByte
      let i2 := i1.dropWhile isDigitByte
      if ds = [] then .panic
      else
        let strSize := digitsVal ds
        match tagP (bs "\r\n") i2 with
        | .err e => .err e
        | .panic => .panic
        | .ok i3 _ =>
            if i3.length < strSize then .panic
            else .ok (i3.drop strSize) (i3.take strSize)

/-- Rust `string`: a `value` followed by `\r\n`. -/
def stringP (i : Bytes) : NomResult Bytes :=
  match valueP i with
  | .ok i1 v =>
      match tagP (bs "\r\n") i1 with
      | .ok i2 _ => .ok i2 v
      | .err e => .err e
      | .panic => .panic
  | .err e => .err e
  | .panic => .panic

/-- Rust `CmdCode` from cmd/parser.rs. -/
inductive CmdCode where
  | ping | set | get | setEx | lpush | rpush | lpushX | rpushX
  | lpop | rpop | lrange | hget | hset | hmGet | hmSet | del
  | incr | incrBy | dbSize | config | commandDocs | flushDb
  | clientSetInfo | ttl | llen | hgetAll | hincrBy | existsKey
  | hexists | hkeys | sadd | sismember | sinter | sunion | sdiff
  | scard | smembers | zadd | zrange | zrevrange | zrank | zrevrank
  | zscore | zrangebyscore | zincrby | zcard
deriving DecidableEq, Repr

/-- The verb match of `cmd`, in source order: exact byte equality against
the uppercase spellings. -/
def verbTable : List (Bytes × CmdCode) :=
  [ (bs "PING", .ping), (bs "SETEX", .setEx), (bs "SET", .set),
    (bs "GET", .get), (bs "LPUSHX", .lpushX), (bs "RPUSHX", .rpushX),
    (bs "LPUSH", .lpush), (bs "RPUSH", .rpush), (bs "LPOP", .lpop),
    (bs "RPOP", .rpop), (bs "LRANGE", .lrange), (bs "HGET", .hget),
    (bs "HSET", .hset), (bs "HMGET", .hmGet), (bs "HMSET", .hmSet),
    (bs "HGETALL", .hgetAll), (bs "HINCRBY", .hincrBy),
    (bs "EXISTS", .existsKey), (bs "HEXISTS", .hexists),
    (bs "HKEYS", .hkeys), (bs "SADD", .sadd),
    (bs "SISMEMBER", .sismember), (bs "SINTER", .sinter),
    (bs "SUNION", .sunion), (bs "SDIFF", .sdiff), (bs "SCARD", .scard),
    (bs "SMEMBERS", .smembers), (bs "ZADD", .zadd),
    (bs "ZRANGE", .zrange), (bs "ZREVRANGE", .zrevrange),
    (bs "ZRANK", .zrank), (bs "ZREVRANK", .zrevrank),
    (bs "ZSCORE", .zscore), (bs "ZRANGEBYSCORE", .zrangebyscore),
    (bs "ZINCRBY", .zincrby), (bs "ZCARD", .zcard), (bs "DEL", .del),
    (bs "INCRBY", .incrBy), (bs "INCR", .incr), (bs "DBSIZE", .dbSize),
    (bs "COMMAND", .commandDocs), (bs "CONFIG", .config),
    (bs "FLUSHDB", .flushDb), (bs "CLIENT", .clientSetInfo),
    (bs "TTL", .ttl), (bs "LLEN", .llen) ]

/-- Rust `cmd`: parse the verb token and match it against the table. -/
def cmdP (i : Bytes) : NomResult CmdCode :=
  match stringP i with
  | .err e => .err e
  | .panic => .panic
  | .ok i1 s =>
      match (verbTable.find? (fun p => p.1 == s)).map Prod.snd with
      | some c => .ok i1 c
      | none => .err ("unknown command: " ++ lossy s)

/-- Rust `cmd_len`: `*`, a digit run, `\r\n`; the empty digit run panics. -/
def cmdLenP (i : Bytes) : NomResult Nat :=
  match tagP (bs "*") i with
  | .err e => .err e
  | .panic => .panic
  | .ok i1 _ =>
      let ds := i1.takeWhile isDigitByte
      let i2 := i1.dropWhile isDigitByte
      match tagP (bs "\r\n") i2 with
      | .err e => .err e
      | .panic => .panic
      | .ok i3 _ => if ds = [] then .panic else .ok i3 (digitsVal ds)

/-- Rust `nom::combinator::opt`: an error rewinds to the original input. -/
def optP {α : Type} (f : Bytes → NomResult α) (i : Bytes) :
    NomResult (Option α) :=
  match f i with
  | .ok r v => .ok r (some v)
  | .err _ => .ok i none
  | .panic => .panic

/-- Rust `u_number::<usize>` / `<u64>`: a `string` token parsed with
`from_str(..).expect(..)` (panic on failure). -/
def bytesToNat? (b : Bytes) : Option Nat :=
  let rest := match b with | 43 :: r => r | r => r
  if rest = [] then none
  else if rest.all isDigitByte then
    let n := digitsVal rest
    if n < 2 ^ 64 then some n else none
  else none

/-- Rust `u_number` at an unsigned integer type. -/
def uNumberNat (i : Bytes) : NomResult Nat :=
  match stringP i with
  | .err e => .err e
  | .panic => .panic
  | .ok i1 s =>
      match bytesToNat? s with
      | some n => .ok i1 n
      | none => .panic

/-- Rust `u_number` at `i64`/`isize`. -/
def uNumberInt (i : Bytes) : NomResult Int :=
  match stringP i with
  | .err e => .err e
  | .panic => .panic
  | .ok i1 s =>
      match bytesToInt? s with
      | some n => .ok i1 n
      | none => .panic

/-- The loop of `separated_list0(tag "\r\n", elem)`: a failed separator or
element ends the list, rewinding to before the separator. -/
def sepListGo (elem : Bytes → NomResult Bytes) :
    Nat → List Bytes → Bytes → NomResult (List Bytes)
  | 0, _, _ => .err "out of fuel"
  | fuel + 1, acc, i =>
      match tagP (bs "\r\n") i with
      | .panic => .panic
      | .err _ => .ok i acc
      | .ok i2 _ =>
          match elem i2 with
          | .panic => .panic
          | .err _ => .ok i acc
          | .ok i3 v => sepListGo elem fuel (acc ++ [v]) i3

/-- Rust `separated_list0(tag "\r\n", elem)`.  Every loop iteration consumes at
least one byte, so the input length bounds the iteration count and the
fuel never runs out. -/
def sepListBy (elem : Bytes → NomResult Bytes) (i : Bytes) :
    NomResult (List Bytes) :=
  match elem i with
  | .panic => .panic
  | .err _ => .ok i []
  | .ok i1 v => sepListGo elem (i1.length + 1) [v] i1

/-- Rust `push`: a key then a `value` list (LPUSH/RPUSH/LPUSHX/RPUSHX/SADD). -/
def pushP (i : Bytes) (f : Bytes → List Bytes → Command) : NomResult Command :=
  match stringP i with
  | .err e => .err e
  | .panic => .panic
  | .ok i1 key =>
      match sepListBy valueP i1 with
      | .err e => .err e
      | .panic => .panic
      | .ok i2 vals => .ok i2 (f key vals)

/-- Rust `pop`: a key then an optional count (LPOP/RPOP). -/
def popP (i : Bytes) (f : Bytes → Option Nat → Command) : NomResult Command :=
  match stringP i with
  | .err e => .err e
  | .panic => .panic
  | .ok i1 key =>
      match optP uNumberNat i1 with
      | .err e => .err e
      | .panic => .panic
      | .ok i2 count => .ok i2 (f key count)

/-- Rust `u8::eq_ignore_ascii_case` over byte slices. -/
def asciiLowerByte (b : Nat) : Nat := if 65 ≤ b ∧ b ≤ 90 then b + 32 else b

/-- Rust `eq_ignore_ascii_case`. -/
def eqIgnoreAsciiCase (a b : Bytes) : Bool :=
  a.map asciiLowerByte == b.map asciiLowerByte

/-- The `chunks(2)` loop of the ZADD arm: `chunk[0]` is parsed as an i64
score with `.expect(..)` and `chunk[1]` is indexed, so a bad score or an
odd token list panics. -/
def zaddPairs : List Bytes → Option (List (Int × Bytes))
  | [] => some []
  | [a] => (bytesToInt? a).bind (fun _ => none)
  | a :: b :: rest =>
      match bytesToInt? a with
      | none => none
      | some s => (zaddPairs rest).map (fun l => (s, b) :: l)

/-- The `?` operator threading of nom results. -/
def NomResult.bind {α β : Type} (r : NomResult α)
    (f : Bytes → α → NomResult β) : NomResult β :=
  match r with
  | .ok i v => f i v
  | .err e => .err e
  | .panic => .panic

/-- Rust `root`: an optional `*<count>\r\n` frame header, the verb, then the
per-verb operand grammar. -/
def rootP (i0 : Bytes) : NomResult Command :=
  (optP cmdLenP i0).bind fun i _ =>
  (cmdP i).bind fun i code =>
  match code with
  | .set =>
      (stringP i).bind fun i key =>
      (stringP i).bind fun i value =>
      (optP stringP i).bind fun i maybeSetOpt =>
      match maybeSetOpt with
      | none => .ok i (.set key value none)
      | some o =>
          if eqIgnoreAsciiCase o (bs "EX") then
            (uNumberNat i).bind fun i ttl =>
              .ok i (.set key value (some (ttl * 1000)))
          else if eqIgnoreAsciiCase o (bs "PX") then
            (uNumberNat i).bind fun i ttl => .ok i (.set key value (some ttl))
          else if eqIgnoreAsciiCase o (bs "NX") then .ok i (.setNx key value)
          else if eqIgnoreAsciiCase o (bs "XX") then .ok i (.setXx key value)
          else if eqIgnoreAsciiCase o (bs "GET") then
            .ok i (.setAndGet key value)
          else if eqIgnoreAsciiCase o (bs "KEEPTTL") then
            .ok i (.setKeepTtl key value)
          else .err ("unknown command: " ++ lossy o)
  | .get => (stringP i).bind fun i key => .ok i (.get key)
  | .setEx =>
      (stringP i).bind fun i key =>
      (uNumberNat i).bind fun i ttl =>
      (stringP i).bind fun i value =>
      .ok i (.set key value (some (ttl * 1000)))
  | .lpush => pushP i .lpush
  | .rpush => pushP i .rpush
  | .lpushX => pushP i .lpushX
  | .rpushX => pushP i .rpushX
  | .lpop => popP i .lpop
  | .rpop => popP i .rpop
  | .commandDocs => .ok i .docs
  | .ping => .ok i .ping
  | .incr => (stringP i).bind fun i key => .ok i (.incr key)
  | .incrBy =>
      (stringP i).bind fun i key =>
      (uNumberInt i).bind fun i d => .ok i (.incrBy key d)
  | .del => (sepListBy valueP i).bind fun i vals => .ok i (.del vals)
  | .dbSize => .ok i .dbSize
  | .hget =>
      (stringP i).bind fun i key =>
      (stringP i).bind fun i field => .ok i (.hget key field)
  | .hset =>
      (stringP i).bind fun i key =>
      (sepListBy valueP i).bind fun i fvs => .ok i (.hmset key fvs)
  | .hmGet =>
      (stringP i).bind fun i key =>
      (sepListBy valueP i).bind fun i fields => .ok i (.hmget key fields)
  | .hmSet =>
      (stringP i).bind fun i key =>
      (sepListBy stringP i).bind fun i fvs => .ok i (.hmset key fvs)
  | .hgetAll => (stringP i).bind fun i key => .ok i (.hgetAll key)
  | .hincrBy =>
      (stringP i).bind fun i key =>
      (stringP i).bind fun i field =>
      (uNumberInt i).bind fun i d => .ok i (.hincrBy key field d)
  | .existsKey => (stringP i).bind fun i key => .ok i (.existsKey key)
  | .hexists =>
      (stringP i).bind fun i key =>
      (stringP i).bind fun i field => .ok i (.hexists key field)
  | .hkeys => (stringP i).bind fun i key => .ok i (.hkeys key)
  | .sadd => pushP i .sadd
  | .sismember =>
      (stringP i).bind fun i key =>
      (stringP i).bind fun i member => .ok i (.sismember key member)
  | .sinter => (sepListBy valueP i).bind fun i keys => .ok i (.sinter keys)
  | .sunion => (sepListBy valueP i).bind fun i keys => .ok i (.sunion keys)
  | .sdiff => (sepListBy valueP i).bind fun i keys => .ok i (.sdiff keys)
  | .scard => (stringP i).bind fun i key => .ok i (.scard key)
  | .smembers => (stringP i).bind fun i key => .ok i (.smembers key)
  | .zadd =>
      (stringP i).bind fun i key =>
      (sepListBy valueP i).bind fun i raw =>
      match zaddPairs raw with
      | none => .panic
      | some members => .ok i (.zadd key members)
  | .zrange =>
      (stringP i).bind fun i key =>
      (uNumberInt i).bind fun i start =>
      (uNumberInt i).bind fun i stop =>
      (optP stringP i).bind fun i flag1 =>
      match flag1 with
      | none => .ok i (.zrange key start stop false)
      | some f =>
          let ws1 := eqIgnoreAsciiCase f (bs "WITHSCORES")
          let rev1 := eqIgnoreAsciiCase f (bs "REV")
          (optP stringP i).bind fun i flag2 =>
          let ws := ws1 ||
            (match flag2 with
              | some f2 => eqIgnoreAsciiCase f2 (bs "WITHSCORES")
              | none => false)
          let rev := rev1 ||
            (match flag2 with
              | some f2 => eqIgnoreAsciiCase f2 (bs "REV")
              | none => false)
          .ok i (if rev then .zrevrange key start stop ws
            else .zrange key start stop ws)
  | .zrevrange =>
      (stringP i).bind fun i key =>
      (uNumberInt i).bind fun i start =>
      (uNumberInt i).bind fun i stop =>
      (optP stringP i).bind fun i maybeFlag =>
      let ws :=
        match maybeFlag with
        | some f => eqIgnoreAsciiCase f (bs "WITHSCORES")
        | none => false
      .ok i (.zrevrange key start stop ws)
  | .zrank =>
      (stringP i).bind fun i key =>
      (stringP i).bind fun i member => .ok i (.zrank key member)
  | .zrevrank =>
      (stringP i).bind fun i key =>
      (stringP i).bind fun i member => .ok i (.zrevrank key member)
  | .zscore =>
      (stringP i).bind fun i key =>
      (stringP i).bind fun i member => .ok i (.zscore key member)
  | .zrangebyscore =>
      (stringP i).bind fun i key =>
      (uNumberInt i).bind fun i min =>
      (uNumberInt i).bind fun i max =>
      (optP stringP i).bind fun i maybeFlag =>
      let ws :=
        match maybeFlag with
        | some f => eqIgnoreAsciiCase f (bs "WITHSCORES")
        | none => false
      .ok i (.zrangebyscore key min max ws)
  | .zincrby =>
      (stringP i).bind fun i key =>
      (uNumberInt i).bind fun i incr =>
      (stringP i).bind fun i member => .ok i (.zincrby key incr member)
  | .config => .ok i .config
  | .flushDb => .ok i .flushDb
  | .clientSetInfo =>
      (stringP i).bind fun i _ =>
      (stringP i).bind fun i param =>
      (stringP i).bind fun i value =>
      .ok i (.clientSetInfo
        (if eqIgnoreAsciiCase param (bs "LIB-NAME") then .libName value
          else .libVersion value))
  | .ttl => (stringP i).bind fun i key => .ok i (.ttl key)
  | .lrange =>
      (stringP i).bind fun i key =>
      (uNumberInt i).bind fun i start =>
      (uNumberInt i).bind fun i stop => .ok i (.lrange key start stop)
  | .llen => (stringP i).bind fun i key => .ok i (.llen key)
  | .zcard => (stringP i).bind fun i key => .ok i (.zcard key)

/-- Rust `slice::split` on the space byte, keeping empty parts. -/
def splitOnByte (sep : Nat) : Bytes → List Bytes
  | [] => [[]]
  | b :: rest =>
      match splitOnByte sep rest with
      | [] => [[]]
      | cur :: parts =>
          if b = sep then [] :: cur :: parts else (b :: cur) :: parts

/-- Rust `inline_to_resp`: strip a trailing `\r\n`, split the line on spaces, and
rebuild the token list as a RESP array of bulk strings. -/
def inlineToResp (i : Bytes) : Bytes :=
  let line := if (bs "\r\n").isSuffixOf i then i.take (i.length - 2) else i
  let parts := splitOnByte 32 line
  (bs "*" ++ bs (toString parts.length) ++ bs "\r\n") ++
    (parts.map
      (fun p => bs "$" ++ bs (toString p.length) ++ bs "\r\n" ++ p ++
        bs "\r\n")).flatten

/-- Rust `RedisError` from err.rs, plus the panic outcome, as seen by the event
loop after `parse`.  `incomplete` is `RedisError::IncompleteInput`;
`parseError` is `RedisError::Parse` (built by the `From` impl as
`invalid input: <detail>`). -/
inductive ParseOutcome where
  | ok (c : Command)
  | incomplete
  | parseError (msg : String)
  | panic
deriving Repr

/-- The `From<nom::Err<ParseFailure>> for RedisError` conversion, applied
to a combinator result (complete-mode combinators never produce
`Err::Incomplete`). -/
def outcomeOf : NomResult Command → ParseOutcome
  | .ok _ c => .ok c
  | .err s => .parseError ("invalid input: " ++ s)
  | .panic => .panic

/-- Rust `parse`: inline detection (first byte neither `*` nor `$`, in which
case the line is first normalized to RESP array form), then `root`. -/
def parse (i : Bytes) : ParseOutcome :=
  if !(bs "*").isPrefixOf i && !(bs "$").isPrefixOf i then
    outcomeOf (rootP (inlineToResp i))
  else outcomeOf (rootP i)

/-- Does the outcome report a malformed input (`RedisError::Parse`)? -/
def ParseOutcome.isParseError : ParseOutcome → Bool
  | .parseError _ => true
  | _ => false

/-- Did the combinator fail with `Err::Error`? -/
def NomResult.isErr {α : Type} : NomResult α → Bool
  | .err _ => true
  | _ => false

/-- The RESP bulk-string framing of one token, as the parser consumes it. -/
def bulkToken (b : Bytes) : Bytes :=
  bs "$" ++ bs (toString b.length) ++ bs "\r\n" ++ b ++ bs "\r\n"

/-- Is the stored value one of the two string variants (the ones the
string path accepts)? -/
def isStringLike : StoredValue → Bool
  | .plain _ => true
  | .ttlPlain _ _ => true
  | _ => false

/-- A sorted-set mutation: the two commands that build sorted sets. -/
inductive ZOp where
  | add (members : List (Int × Bytes))
  | incrBy (incr : Int) (member : Bytes)

/-- Run a sequence of ZADD / ZINCRBY commands against one key through the
source operations (an error leaves the keyspace unchanged, as in the
dispatch). -/
def zrunKs (key : Bytes) : List ZOp → Keyspace → Keyspace
  | [], ks => ks
  | op :: rest, ks =>
      let ks2 :=
        match op with
        | .add members =>
            match zsetAdd ks key members with
            | .ok (k2, _) => k2
            | .error _ => ks
        | .incrBy incr member =>
            match zsetIncrBy ks key incr member with
            | .ok (k2, _) => k2
            | .error _ => ks
      zrunKs key rest ks2

/-- The invariant of claim C9 on one sorted set value, together with the
strict ordering of the index that `BTreeSet` maintains. -/
def ZInv (t : List (Int × Bytes)) (sc : List (Bytes × Int)) : Prop :=
  t.Pairwise (fun p q => pairLt p q = true) ∧
  ∀ (s : Int) (m : Bytes), ((s, m) ∈ t ↔ alistGet sc m = some s)

/-- The invariant lifted to the keyspace: whatever sorted set sits under
the key satisfies `ZInv`. -/
def KInv (key : Bytes) (ks : Keyspace) : Prop :=
  ∀ t sc, alistGet ks key = some (.sortedSet t sc) → ZInv t sc

/-- Is the byte an ASCII lowercase letter? -/
def isLowerByte (b : Nat) : Bool := 97 ≤ b && b ≤ 122

/-! # Theorems -/

theorem listPushFront_eq (vs l : List Bytes) :
    listPushFront vs l = vs.reverse ++ l := by
  induction vs generalizing l with
  | nil => simp [listPushFront]
  | cons v vs2 ih => simp [listPushFront, ih]

theorem listPushBack_eq (vs l : List Bytes) : listPushBack vs l = l ++ vs := by
  induction vs generalizing l with
  | nil => simp [listPushBack]
  | cons v vs2 ih =>
      simp only [listPushBack, List.foldl_cons] at *
      rw [ih (l ++ [v])]
      simp

theorem alistGet_alistSet {β : Type} (l : List (Bytes × β)) (k k2 : Bytes)
    (v : β) :
    alistGet (alistSet l k v) k2 = if k = k2 then some v else alistGet l k2 := by
  induction l with
  | nil => simp [alistSet, alistGet]
  | cons p rest ih =>
      obtain ⟨k3, v3⟩ := p
      by_cases h3 : k3 = k
      · subst h3
        simp only [alistSet, if_pos rfl, alistGet]
        by_cases hk : k3 = k2 <;> simp [hk]
      · simp only [alistSet, if_neg h3, alistGet]
        by_cases hk : k3 = k2
        · subst hk
          have : ¬k = k3 := fun he => h3 he.symm
          simp [this]
        · simp [hk, ih]

theorem outcomeOf_ne_incomplete (r : NomResult Command) :
    outcomeOf r ≠ .incomplete := by
  cases r <;> simp [outcomeOf]

theorem bytesLt_irrefl (a : Bytes) : bytesLt a a = false := by
  induction a with
  | nil => rfl
  | cons x rest ih => simp [bytesLt, ih]

theorem bytesLt_trichotomy (a b : Bytes) :
    bytesLt a b = true ∨ a = b ∨ bytesLt b a = true := by
  induction a generalizing b with
  | nil =>
      cases b with
      | nil => exact Or.inr (Or.inl rfl)
      | cons y ys => exact Or.inl rfl
  | cons x xs ih =>
      cases b with
      | nil => exact Or.inr (Or.inr rfl)
      | cons y ys =>
          rcases Nat.lt_trichotomy x y with h | h | h
          · exact Or.inl (by simp [bytesLt, h])
          · subst h
            rcases ih ys with h2 | h2 | h2
            · exact Or.inl (by simp [bytesLt, h2])
            · exact Or.inr (Or.inl (by rw [h2]))
            · exact Or.inr (Or.inr (by simp [bytesLt, h2]))
          · exact Or.inr (Or.inr (by simp [bytesLt, h]))

theorem bytesLt_trans {a b c : Bytes} (hab : bytesLt a b = true)
    (hbc : bytesLt b c = true) : bytesLt a c = true := by
  induction a generalizing b c with
  | nil =>
      cases b with
      | nil => exact absurd hab (by simp [bytesLt])
      | cons y ys =>
          cases c with
          | nil => exact absurd hbc (by simp [bytesLt])
          | cons z zs => rfl
  | cons x xs ih =>
      cases b with
      | nil => exact absurd hab (by simp [bytesLt])
      | cons y ys =>
          cases c with
          | nil => exact absurd hbc (by simp [bytesLt])
          | cons z zs =>
              simp only [bytesLt] at hab hbc ⊢
              split at hab
              · rename_i hxy
                split at hbc
                · rename_i hyz
                  simp [Nat.lt_trans hxy hyz]
                · split at hbc
                  · exact absurd hbc (by simp)
                  · rename_i hzy hyz
                    have hyz2 : y = z := Nat.le_antisymm
                      (Nat.le_of_not_lt hyz) (Nat.le_of_not_lt hzy)
                    subst hyz2
                    simp [hxy]
              · split at hab
                · exact absurd hab (by simp)
                · rename_i hyx hxy
                  have hxy2 : x = y := Nat.le_antisymm
                    (Nat.le_of_not_lt hxy) (Nat.le_of_not_lt hyx)
                  subst hxy2
                  split at hbc
                  · rename_i hxz
                    simp [hxz]
                  · split at hbc
                    · exact absurd hbc (by simp)
                    · rename_i hzx hxz
                      have hxz2 : x = z := Nat.le_antisymm
                        (Nat.le_of_not_lt hxz) (Nat.le_of_not_lt hzx)
                      subst hxz2
                      simp [ih hab hbc]

theorem pairLt_irrefl (p : Int × Bytes) : pairLt p p = false := by
  simp [pairLt, bytesLt_irrefl]

theorem pairLt_trichotomy (p q : Int × Bytes) :
    pairLt p q = true ∨ p = q ∨ pairLt q p = true := by
  obtain ⟨ps, pm⟩ := p
  obtain ⟨qs, qm⟩ := q
  rcases lt_trichotomy ps qs with h | h | h
  · exact Or.inl (by simp [pairLt, h])
  · subst h
    rcases bytesLt_trichotomy pm qm with h2 | h2 | h2
    · exact Or.inl (by simp [pairLt, h2])
    · exact Or.inr (Or.inl (by rw [h2]))
    · exact Or.inr (Or.inr (by simp [pairLt, h2]))
  · exact Or.inr (Or.inr (by simp [pairLt, h]))

theorem pairLt_trans {p q r : Int × Bytes} (hpq : pairLt p q = true)
    (hqr : pairLt q r = true) : pairLt p r = true := by
  obtain ⟨ps, pm⟩ := p
  obtain ⟨qs, qm⟩ := q
  obtain ⟨rs, rm⟩ := r
  simp only [pairLt] at hpq hqr ⊢
  split at hpq
  · rename_i h1
    split at hqr
    · rename_i h2
      simp [lt_trans h1 h2]
    · split at hqr
      · exact absurd hqr (by simp)
      · rename_i h2 h3
        have : qs = rs := le_antisymm (le_of_not_lt h3) (le_of_not_lt h2)
        subst this
        simp [h1]
  · split at hpq
    · exact absurd hpq (by simp)
    · rename_i h1 h2
      have : ps = qs := le_antisymm (le_of_not_lt h2) (le_of_not_lt h1)
      subst this
      split at hqr
      · rename_i h3
        simp [h3]
      · split at hqr
        · exact absurd hqr (by simp)
        · rename_i h3 h4
          have : ps = rs := le_antisymm (le_of_not_lt h4) (le_of_not_lt h3)
          subst this
          simp [bytesLt_trans hpq hqr]

theorem mem_treeInsert (x p : Int × Bytes) (t : List (Int × Bytes)) :
    x ∈ treeInsert p t ↔ x = p ∨ x ∈ t := by
  induction t with
  | nil => simp [treeInsert]
  | cons q rest ih =>
      simp only [treeInsert]
      split
      · simp
      · split
        · rename_i hpq
          subst hpq
          simp only [List.mem_cons]
          constructor
          · intro h
            exact Or.inr h
          · rintro (h | h)
            · exact Or.inl h
            · exact h
        · simp only [List.mem_cons, ih]
          tauto

theorem pairwise_treeInsert (p : Int × Bytes) (t : List (Int × Bytes))
    (h : t.Pairwise (fun a b => pairLt a b = true)) :
    (treeInsert p t).Pairwise (fun a b => pairLt a b = true) := by
  induction t with
  | nil => simp [treeInsert]
  | cons q rest ih =>
      rcases List.pairwise_cons.mp h with ⟨hq, hrest⟩
      simp only [treeInsert]
      split
      · rename_i hpq
        refine List.pairwise_cons.mpr ⟨?_, h⟩
        intro x hx
        rcases List.mem_cons.mp hx with hx | hx
        · subst hx
          exact hpq
        · exact pairLt_trans hpq (hq x hx)
      · split
        · exact h
        · rename_i hnlt hne
          refine List.pairwise_cons.mpr ⟨?_, ih hrest⟩
          intro x hx
          rcases (mem_treeInsert x p rest).mp hx with hx | hx
          · rw [hx]
            rcases pairLt_trichotomy p q with h2 | h2 | h2
            · exact absurd h2 hnlt
            · exact absurd h2 hne
            · exact h2
          · exact hq x hx

theorem nodup_of_pairwiseLt {t : List (Int × Bytes)}
    (h : t.Pairwise (fun a b => pairLt a b = true)) : t.Nodup := by
  refine h.imp ?_
  intro a b hlt he
  subst he
  rw [pairLt_irrefl] at hlt
  cases hlt

theorem zmove_inv (t : List (Int × Bytes)) (sc : List (Bytes × Int))
    (newScore : Int) (member : Bytes) (h : ZInv t sc) :
    ZInv (treeInsert (newScore, member)
        (match alistGet sc member with
          | some old => treeRemove (old, member) t
          | none => t))
      (alistSet sc member newScore) := by
  obtain ⟨hp, hc⟩ := h
  cases hget : alistGet sc member with
  | none =>
      refine ⟨pairwise_treeInsert _ _ hp, ?_⟩
      intro s m
      rw [mem_treeInsert, alistGet_alistSet]
      by_cases hm : member = m
      · subst hm
        rw [if_pos rfl]
        constructor
        · rintro (h1 | h1)
          · rw [(Prod.mk.injEq _ _ _ _).mp h1 |>.1]
          · rw [hc s member, hget] at h1
            cases h1
        · intro h1
          exact Or.inl (by rw [Option.some.injEq] at h1; rw [h1])
      · rw [if_neg hm, ← hc s m]
        constructor
        · rintro (h1 | h1)
          · exact absurd ((Prod.mk.injEq _ _ _ _).mp h1).2.symm hm
          · exact h1
        · exact Or.inr
  | some old =>
      have hnd := nodup_of_pairwiseLt hp
      refine ⟨pairwise_treeInsert _ _
        (List.Pairwise.sublist (List.erase_sublist _ _) hp), ?_⟩
      intro s m
      rw [mem_treeInsert, alistGet_alistSet]
      simp only [treeRemove]
      rw [hnd.mem_erase_iff]
      by_cases hm : member = m
      · subst hm
        rw [if_pos rfl]
        constructor
        · rintro (h1 | ⟨h1, h2⟩)
          · rw [(Prod.mk.injEq _ _ _ _).mp h1 |>.1]
          · rw [hc s member, hget, Option.some.injEq] at h2
            exact absurd (by rw [h2]) h1
        · intro h1
          exact Or.inl (by rw [Option.some.injEq] at h1; rw [h1])
      · rw [if_neg hm, ← hc s m]
        constructor
        · rintro (h1 | ⟨_, h2⟩)
          · exact absurd ((Prod.mk.injEq _ _ _ _).mp h1).2.symm hm
          · exact h2
        · intro h1
          refine Or.inr ⟨?_, h1⟩
          intro h2
          exact hm ((Prod.mk.injEq _ _ _ _).mp h2).2.symm

theorem zaddOne_inv (t : List (Int × Bytes)) (sc : List (Bytes × Int))
    (score : Int) (member : Bytes) (h : ZInv t sc) :
    ZInv (zaddOne t sc score member).1 (zaddOne t sc score member).2.1 := by
  have hmv := zmove_inv t sc score member h
  cases hget : alistGet sc member with
  | none =>
      rw [hget] at hmv
      simpa [zaddOne, hget] using hmv
  | some old =>
      rw [hget] at hmv
      simpa [zaddOne, hget] using hmv

theorem zaddMany_inv (members : List (Int × Bytes)) :
    ∀ (t : List (Int × Bytes)) (sc : List (Bytes × Int)), ZInv t sc →
      ZInv (zaddMany t sc members).1 (zaddMany t sc members).2.1 := by
  induction members with
  | nil => intro t sc h; simpa [zaddMany] using h
  | cons p rest ih =>
      intro t sc h
      obtain ⟨score, member⟩ := p
      have h1 := zaddOne_inv t sc score member h
      simp only [zaddMany]
      exact ih _ _ h1

theorem zinv_empty : ZInv [] [] := by
  refine ⟨List.Pairwise.nil, ?_⟩
  intro s m
  simp [alistGet]

theorem kinv_empty (key : Bytes) : KInv key [] := by
  intro t sc h
  simp [alistGet] at h

theorem kinv_zsetAdd (key : Bytes) (members : List (Int × Bytes))
    (ks : Keyspace) (h : KInv key ks) :
    KInv key
      (match zsetAdd ks key members with
        | .ok (k2, _) => k2
        | .error _ => ks) := by
  unfold zsetAdd
  cases hks : alistGet ks key with
  | none =>
      intro t sc hget2
      rw [alistGet_alistSet, if_pos rfl, Option.some.injEq] at hget2
      have h2 := zaddMany_inv members [] [] zinv_empty
      cases hget2
      exact h2
  | some sv =>
      cases sv with
      | sortedSet t0 sc0 =>
          intro t sc hget2
          rw [alistGet_alistSet, if_pos rfl, Option.some.injEq] at hget2
          have h2 := zaddMany_inv members t0 sc0 (h t0 sc0 hks)
          cases hget2
          exact h2
      | plain b => exact h
      | ttlPlain b d => exact h
      | list l => exact h
      | dict d => exact h
      | set s => exact h

theorem kinv_zsetIncrBy (key : Bytes) (incr : Int) (member : Bytes)
    (ks : Keyspace) (h : KInv key ks) :
    KInv key
      (match zsetIncrBy ks key incr member with
        | .ok (k2, _) => k2
        | .error _ => ks) := by
  unfold zsetIncrBy
  cases hks : alistGet ks key with
  | none =>
      intro t sc hget2
      rw [alistGet_alistSet, if_pos rfl, Option.some.injEq] at hget2
      have hmv := zmove_inv [] [] (0 + incr) member zinv_empty
      rw [show alistGet ([] : List (Bytes × Int)) member = none from rfl]
        at hmv
      cases hget2
      exact hmv
  | some sv =>
      cases sv with
      | sortedSet t0 sc0 =>
          intro t sc hget2
          rw [alistGet_alistSet, if_pos rfl, Option.some.injEq] at hget2
          have hmv := zmove_inv t0 sc0
            ((alistGet sc0 member).getD 0 + incr) member (h t0 sc0 hks)
          cases hget2
          cases hget0 : alistGet sc0 member with
          | none =>
              rw [hget0] at hmv
              simpa [hget0] using hmv
          | some old =>
              rw [hget0] at hmv
              simpa [hget0] using hmv
      | plain b => exact h
      | ttlPlain b d => exact h
      | list l => exact h
      | dict d => exact h
      | set s => exact h

theorem zrunKs_inv (key : Bytes) (ops : List ZOp) :
    ∀ ks : Keyspace, KInv key ks → KInv key (zrunKs key ops ks) := by
  induction ops with
  | nil => intro ks h; simpa [zrunKs] using h
  | cons op rest ih =>
      intro ks h
      simp only [zrunKs]
      cases op with
      | add members => exact ih _ (kinv_zsetAdd key members ks h)
      | incrBy incr member => exact ih _ (kinv_zsetIncrBy key incr member ks h)

/-! ## The claims -/

/-- C1: the claim says FLUSHDB replies `OK` and clears the keyspace.  The
code replies `OK` but performs no clearing at all: on the one-key keyspace
`{k ↦ "v"}` the keyspace after FLUSHDB is unchanged and DBSIZE still
reports 1, not 0. -/
theorem flushdb_replies_ok_but_does_not_clear :
    execute 0 .flushDb [(bs "k", .plain (bs "v"))] =
      some ([(bs "k", .plain (bs "v"))], .simple "OK") ∧
    execute 0 .dbSize [(bs "k", .plain (bs "v"))] =
      some ([(bs "k", .plain (bs "v"))], .int 1) ∧
    ([(bs "k", .plain (bs "v"))] : Keyspace) ≠ [] :=
  ⟨rfl, rfl, by decide⟩

/-- C2: the claim says a strict prefix of a well-formed command yields the
incomplete-input outcome, never a parse error and never a panic.  The
parser is built from complete-mode nom combinators, so it can never
produce `IncompleteInput`; on the prefix `*2\r\n$3\r\nGET` of the
well-formed `*2\r\n$3\r\nGET\r\n$1\r\nk\r\n` it reports a parse error, and
on the prefix `*2\r\n$3\r\nGE` the unchecked slice `&i[0..str_size]`
panics. -/
theorem parser_prefix_errors_or_panics_never_incomplete :
    (∀ i : Bytes, parse i ≠ .incomplete) ∧
    (parse (bs "*2\r\n$3\r\nGET")).isParseError = true ∧
    parse (bs "*2\r\n$3\r\nGE") = .panic := by
  refine ⟨?_, by rfl, by rfl⟩
  intro i
  unfold parse
  split
  · exact outcomeOf_ne_incomplete _
  · exact outcomeOf_ne_incomplete _

/-- C3 counterexample: `SET k v GET` on a list-valued key replies
WRONGTYPE, yet the keyspace after the command differs from the keyspace
before it — the stored list has been overwritten by the new string (the
insert happens before the type check). -/
theorem set_get_wrongtype_still_mutates :
    execute 0 (.setAndGet (bs "k") (bs "v")) [(bs "k", .list [bs "a"])] =
      some ([(bs "k", .plain (bs "v"))], .wrongType "expected STRING") ∧
    ([(bs "k", .plain (bs "v"))] : Keyspace) ≠ [(bs "k", .list [bs "a"])] :=
  ⟨rfl, by decide⟩

/-- C3 amended: whenever any command other than `SET … GET` replies
WRONGTYPE the keyspace is unchanged; `SET … GET` on a non-string prior
value replies WRONGTYPE but still overwrites the stored value with the new
string. -/
theorem wrongtype_preserves_keyspace_except_set_get :
    (∀ (now : Nat) (c : Command) (ks ks2 : Keyspace) (msg : String),
        execute now c ks = some (ks2, .wrongType msg) →
        (∀ k v, c ≠ .setAndGet k v) → ks2 = ks) ∧
    (∀ (now : Nat) (k v : Bytes) (ks : Keyspace) (sv : StoredValue),
        alistGet ks k = some sv → isStringLike sv = false →
        execute now (.setAndGet k v) ks =
          some (alistSet ks k (.plain v), .wrongType "expected STRING")) := by
  constructor
  · intro now c ks ks2 msg h hne
    cases c
    case setAndGet k v => exact absurd rfl (hne k v)
    all_goals
      simp only [execute] at h
    all_goals
      repeat split at h
    all_goals
      cases h
    all_goals
      rfl
  · intro now k v ks sv hget hsl
    cases sv <;> simp [isStringLike] at hsl <;>
      simp [execute, insertAlloc, hget]

/-- C3 witness: both parts at concrete inputs — LLEN on a string replies
WRONGTYPE leaving the keyspace as it was, and `SET k v GET` on a
set-valued key overwrites while replying WRONGTYPE. -/
theorem wrongtype_preserves_keyspace_except_set_get_witness :
    ([(bs "k", StoredValue.plain (bs "v"))] : Keyspace) =
      [(bs "k", StoredValue.plain (bs "v"))] ∧
    execute 0 (.setAndGet (bs "k") (bs "w")) [(bs "k", .set [])] =
      some (alistSet [(bs "k", StoredValue.set [])] (bs "k")
        (.plain (bs "w")), .wrongType "expected STRING") :=
  ⟨wrongtype_preserves_keyspace_except_set_get.1 0 (.llen (bs "k"))
      [(bs "k", .plain (bs "v"))] [(bs "k", .plain (bs "v"))]
      "stored value isn't a list" (by rfl)
      (fun k v h => Command.noConfusion h),
    wrongtype_preserves_keyspace_except_set_get.2 0 (bs "k") (bs "w")
      [(bs "k", .set [])] (.set []) (by rfl) (by rfl)⟩

/-- C4 counterexample: RPUSH of one value onto an existing one-element
list leaves a list of length 2 but replies `:1` — the number of values
pushed, not the new length of the list. -/
theorem rpush_replies_pushed_count_not_length :
    execute 0 (.rpush (bs "k") [bs "b"]) [(bs "k", .list [bs "a"])] =
      some ([(bs "k", .list [bs "a", bs "b"])], .int 1) ∧
    ([bs "a", bs "b"] : List Bytes).length ≠ 1 :=
  ⟨rfl, by decide⟩

/-- C4 amended: on a key that is absent or holds a list, `LPUSH k v1..vn`
leaves `[vn, …, v1] ++ existing` and `RPUSH` leaves `existing ++ [v1..vn]`,
and each replies with the integer number of values supplied (which equals
the new length only when the list was previously empty). -/
theorem push_order_and_reply (now : Nat) (ks : Keyspace) (k : Bytes)
    (vs l : List Bytes) (_hvs : vs ≠ [])
    (h : alistGet ks k = none ∧ l = [] ∨ alistGet ks k = some (.list l)) :
    execute now (.lpush k vs) ks =
      some (alistSet ks k (.list (vs.reverse ++ l)), .int vs.length) ∧
    execute now (.rpush k vs) ks =
      some (alistSet ks k (.list (l ++ vs)), .int vs.length) := by
  rcases h with ⟨h1, h2⟩ | h1
  · subst h2
    constructor <;>
      simp [execute, listPrepend, listAppend, h1, listPushFront_eq,
        listPushBack_eq]
  · constructor <;>
      simp [execute, listPrepend, listAppend, h1, listPushFront_eq,
        listPushBack_eq]

/-- C4 witness: pushing `a b` onto an absent key. -/
theorem push_order_and_reply_witness :
    execute 0 (.lpush (bs "k") [bs "a", bs "b"]) [] =
      some (alistSet [] (bs "k")
        (.list (([bs "a", bs "b"] : List Bytes).reverse ++ [])),
        .int ([bs "a", bs "b"] : List Bytes).length) ∧
    execute 0 (.rpush (bs "k") [bs "a", bs "b"]) [] =
      some (alistSet [] (bs "k") (.list ([] ++ [bs "a", bs "b"])),
        .int ([bs "a", bs "b"] : List Bytes).length) :=
  push_order_and_reply 0 [] (bs "k") [bs "a", bs "b"] [] (by decide)
    (Or.inl ⟨rfl, rfl⟩)

/-- C5: the claim states Redis LRANGE normalization.  The code instead
computes `len - start` for negative indices and takes `stop + 1` elements:
on the list `[a, b, c]`, `LRANGE 1 1` returns `[b, c]` where the claim
requires `[b]`, and `LRANGE -1 -1` returns `[]` where the claim requires
`[c]`. -/
theorem lrange_slice_diverges_from_redis_semantics :
    execute 0 (.lrange (bs "L") 1 1)
        [(bs "L", .list [bs "a", bs "b", bs "c"])] =
      some ([(bs "L", .list [bs "a", bs "b", bs "c"])],
        .array [bs "b", bs "c"] 2) ∧
    execute 0 (.lrange (bs "L") (-1) (-1))
        [(bs "L", .list [bs "a", bs "b", bs "c"])] =
      some ([(bs "L", .list [bs "a", bs "b", bs "c"])], .array [] 0) ∧
    (Resp.array [bs "b", bs "c"] 2 ≠ Resp.array [bs "b"] 1) ∧
    (Resp.array [] 0 ≠ Resp.array [bs "c"] 1) :=
  ⟨rfl, rfl, by decide, by decide⟩

/-- C6 counterexample: TTL on a missing key replies the null bulk
(`$-1\r\n`), not the integer -2; TTL on a plain string also replies the
null bulk, not the integer -1. -/
theorem ttl_missing_and_plain_reply_null_bulk :
    execute 0 (.ttl (bs "k")) [] = some ([], .nullBulk) ∧
    execute 0 (.ttl (bs "k")) [(bs "k", .plain (bs "v"))] =
      some ([(bs "k", .plain (bs "v"))], .nullBulk) ∧
    (Resp.nullBulk ≠ Resp.int (-2)) ∧ (Resp.nullBulk ≠ Resp.int (-1)) :=
  ⟨rfl, rfl, by decide, by decide⟩

/-- C6 amended: TTL replies the null bulk when the key is missing or holds
a plain string, the integer remaining whole seconds (saturating at zero)
when it holds a string with expiry, and WRONGTYPE otherwise. -/
theorem ttl_reply_characterization (now : Nat) (ks : Keyspace) (k : Bytes) :
    execute now (.ttl k) ks = some (ks,
      match alistGet ks k with
      | none => Resp.nullBulk
      | some (.plain _) => Resp.nullBulk
      | some (.ttlPlain _ deadline) =>
          Resp.int (((deadline - now) / 1000 : Nat) : Int)
      | some _ =>
          Resp.wrongType "cannot get the TTL for the stored value") := by
  cases hget : alistGet ks k with
  | none => simp [execute, getTtl, hget]
  | some sv => cases sv <;> simp [execute, getTtl, hget]

/-- C7 counterexample: INCR on a missing key replies the null bulk and
writes nothing, where the claim requires storing `"1"` and replying the
integer 1. -/
theorem incr_missing_key_yields_null_and_no_write :
    execute 0 (.incr (bs "k")) [] = some ([], .nullBulk) ∧
    execute 0 (.incr (bs "k")) [] ≠
      some ([(bs "k", .plain (bs "1"))], .int 1) :=
  ⟨rfl, by decide⟩

/-- C7 amended: INCR and INCRBY on a missing key reply the null bulk and
leave the keyspace unchanged (no value is written). -/
theorem incr_missing_key_null_bulk (now : Nat) (ks : Keyspace) (k : Bytes)
    (d : Int) (h : alistGet ks k = none) :
    execute now (.incr k) ks = some (ks, .nullBulk) ∧
    execute now (.incrBy k d) ks = some (ks, .nullBulk) := by
  constructor <;> simp [execute, incrBy, h]

/-- C7 witness: the empty keyspace. -/
theorem incr_missing_key_null_bulk_witness :
    execute 0 (.incr (bs "k")) [] = some ([], .nullBulk) ∧
    execute 0 (.incrBy (bs "k") 5) [] = some ([], .nullBulk) :=
  incr_missing_key_null_bulk 0 [] (bs "k") 5 rfl

/-- C8 counterexample: the uppercase spelling `GET` parses, but the
lowercase variant `get` of the same RESP frame is rejected as an unknown
command — the parser does not treat ASCII case variants of a verb as the
same command. -/
theorem lowercase_verb_rejected :
    parse (bs "*2\r\n$3\r\nGET\r\n$1\r\nk\r\n") = .ok (.get (bs "k")) ∧
    (parse (bs "*2\r\n$3\r\nget\r\n$1\r\nk\r\n")).isParseError = true :=
  ⟨rfl, rfl⟩

theorem asciiLower_eq_forces_lower {a b : Nat}
    (h : asciiLowerByte a = asciiLowerByte b) (hne : a ≠ b)
    (hb : isLowerByte b = false) : isLowerByte a = true := by
  simp only [asciiLowerByte] at h
  simp only [isLowerByte, Bool.and_eq_true, decide_eq_true_eq,
    Bool.and_eq_false_iff, decide_eq_false_iff_not, not_le] at hb ⊢
  split at h <;> split at h <;> omega

theorem eqIgnoreAsciiCase_iff (s v : Bytes) :
    eqIgnoreAsciiCase s v = true ↔
      s.map asciiLowerByte = v.map asciiLowerByte := by
  simp [eqIgnoreAsciiCase]

theorem caseVariant_ne_has_lower :
    ∀ (s v : Bytes), eqIgnoreAsciiCase s v = true → s ≠ v →
      v.all (fun b => !isLowerByte b) = true → s.any isLowerByte = true := by
  intro s
  induction s with
  | nil =>
      intro v h hne hv
      cases v with
      | nil => exact absurd rfl hne
      | cons b vs => simp [eqIgnoreAsciiCase_iff] at h
  | cons a as ih =>
      intro v h hne hv
      cases v with
      | nil => simp [eqIgnoreAsciiCase_iff] at h
      | cons b vs =>
          rw [eqIgnoreAsciiCase_iff] at h
          simp only [List.map_cons, List.cons.injEq] at h
          obtain ⟨h1, h2⟩ := h
          simp only [List.all_cons, Bool.and_eq_true] at hv
          simp only [List.any_cons, Bool.or_eq_true]
          by_cases hab : a = b
          · subst hab
            have hne2 : as ≠ vs := fun he => hne (by rw [he])
            exact Or.inr (ih vs ((eqIgnoreAsciiCase_iff as vs).mpr h2)
              hne2 hv.2)
          · refine Or.inl (asciiLower_eq_forces_lower h1 hab ?_)
            have := hv.1
            simp only [Bool.not_eq_true'] at this
            exact this

theorem table_entries_not_lower :
    ∀ q ∈ verbTable, q.1.all (fun b => !isLowerByte b) = true := by
  decide

theorem find_none_of_lower (s : Bytes) (hs : s.any isLowerByte = true) :
    verbTable.find? (fun q => q.1 == s) = none := by
  rw [List.find?_eq_none]
  intro q hq hbeq
  have heq : q.1 = s := eq_of_beq hbeq
  have h2 := table_entries_not_lower q hq
  rw [heq] at h2
  rcases List.any_eq_true.mp hs with ⟨b, hb, hbl⟩
  have h3 := List.all_eq_true.mp h2 b hb
  rw [hbl] at h3
  cases h3

/-- C8 amended: verbs are matched by exact byte equality against their
uppercase spellings: every table entry is recognized exactly as spelled,
and every ASCII case variant of a supported verb that differs from that
spelling (Get, get, gET, …) is rejected by the verb matcher with an
unknown-command error, whatever framing delivered the token. -/
theorem verbs_matched_case_sensitively :
    (∀ p ∈ verbTable, cmdP (bulkToken p.1) = .ok [] p.2) ∧
    (∀ p ∈ verbTable, ∀ (i rest s : Bytes),
        stringP i = .ok rest s → eqIgnoreAsciiCase s p.1 = true →
        s ≠ p.1 → (cmdP i).isErr = true) := by
  constructor
  · decide
  · intro p hp i rest s hS hCase hne
    have hv := table_entries_not_lower p hp
    have hs := caseVariant_ne_has_lower s p.1 hCase hne hv
    simp only [cmdP, hS]
    rw [find_none_of_lower s hs]
    rfl

/-- C8 witness: the GET verb is recognized as `GET` and the mixed-case
variant `Get` is rejected. -/
theorem verbs_matched_case_sensitively_witness :
    cmdP (bulkToken (bs "GET")) = .ok [] CmdCode.get ∧
    (cmdP (bulkToken (bs "Get"))).isErr = true :=
  ⟨verbs_matched_case_sensitively.1 (bs "GET", CmdCode.get) (by decide),
    verbs_matched_case_sensitively.2 (bs "GET", CmdCode.get) (by decide)
      (bulkToken (bs "Get")) [] (bs "Get") (by rfl) (by decide) (by decide)⟩

/-- C9: for every sorted set reachable from the empty keyspace by any
sequence of ZADD and ZINCRBY operations on a key, the ordered index and
the member-to-score lookup are mutually consistent: `(s, m)` is in the
index iff the lookup maps `m` to `s`. -/
theorem zset_index_and_lookup_consistent (key : Bytes) (ops : List ZOp)
    (t : List (Int × Bytes)) (sc : List (Bytes × Int)) (s : Int) (m : Bytes)
    (h : alistGet (zrunKs key ops []) key = some (.sortedSet t sc)) :
    (s, m) ∈ t ↔ alistGet sc m = some s :=
  ((zrunKs_inv key ops [] (kinv_empty key)) t sc h).2 s m

/-- C9 witness: `ZADD z 1 a` then `ZINCRBY z 2 a` from the empty
keyspace. -/
theorem zset_index_and_lookup_consistent_witness :
    ((3 : Int), bs "a") ∈ [((3 : Int), bs "a")] ↔
      alistGet [(bs "a", (3 : Int))] (bs "a") = some 3 :=
  zset_index_and_lookup_consistent (bs "z")
    [.add [(1, bs "a")], .incrBy 2 (bs "a")]
    [((3 : Int), bs "a")] [(bs "a", (3 : Int))] 3 (bs "a") (by rfl)

/-- C10: `SET k v NX` and `SET k v XX` always reply the simple string `OK`
(never a null bulk), and the keyspace changes exactly when the guard
holds: NX writes iff the key was absent, XX writes iff the key was
present, and it is entirely unchanged otherwise. -/
theorem setnx_setxx_always_ok_guarded_write (now : Nat) (ks : Keyspace)
    (k v : Bytes) :
    execute now (.setNx k v) ks =
      some ((if alistContains ks k then ks else alistSet ks k (.plain v)),
        .simple "OK") ∧
    execute now (.setXx k v) ks =
      some ((if alistContains ks k then alistSet ks k (.plain v) else ks),
        .simple "OK") := by
  by_cases h : alistContains ks k <;>
    simp [execute, setIfNotExist, updateIfExist, insertAlloc, h]

end Reddis2
